import Mathlib

/-
  A shallow embedding of the bf19 interpreter (src/lib.rs) in Lean 4.

  Modelling conventions:
  - characters are represented by their Unicode code points (Nat);
  - bytes are Nats kept below 256, wrapping arithmetic is written
    explicitly as `% 256`;
  - Rust `Vec` push/pop act at the back of the vector, so they are
    modelled by `l ++ [x]`, `l.dropLast` and `l.getLast?`, preserving
    element order exactly;
  - Rust panics (`unwrap`, `expect`, `todo!`, `unreachable!`) are
    modelled by the distinct outcome `RunOut.panic`, as opposed to a
    `Result::Err` value which is modelled by `RunOut.err`;
  - randomness is modelled by explicit oracle streams indexed by a
    draw counter threaded through the machine state.
-/

/-- Rounds a byte to the nearest multiple of 5 (src/lib.rs `cell_round`):
remainders of at most 2 round down, larger remainders round up with
wrapping addition of 5. -/
def cell_round (n : Nat) : Nat :=
  if n % 5 ≤ 2 then 5 * (n / 5) else (5 * (n / 5) + 5) % 256

/-- The tape (src/lib.rs `Tape`): a stack of cells to the left of the
head, a stack of cells to the right of the head, and the cell at the
head.  The back of each list is the top of the stack (nearest the head),
matching the Rust `Vec` order. -/
structure Tape where
  data_l : List Nat
  data_r : List Nat
  cell : Nat
  deriving DecidableEq

/-- Creates a fresh tape (`Tape::new`). -/
def Tape.new : Tape := ⟨[], [], 0⟩

/-- Reads the current cell (`Tape::get`). -/
def Tape.get (t : Tape) : Nat := t.cell

/-- Writes the current cell (`Tape::set`). -/
def Tape.set (t : Tape) (val : Nat) : Tape := { t with cell := val }

/-- Reads the cell one step to the right of the head (`Tape::get_next`);
an empty right stack reads as zero. -/
def Tape.get_next (t : Tape) : Nat := t.data_r.getLast?.getD 0

/-- Writes the cell one step to the right of the head (`Tape::set_next`);
the cell is created when the right stack is empty. -/
def Tape.set_next (t : Tape) (val : Nat) : Tape :=
  if t.data_r.isEmpty then { t with data_r := [val] }
  else { t with data_r := t.data_r.dropLast ++ [val] }

/-- Moves the head one step to the right (`Tape::next`): the current
cell is pushed onto the left stack and the new current cell is popped
from the right stack, defaulting to zero. -/
def Tape.next (t : Tape) : Tape :=
  ⟨t.data_l ++ [t.cell], t.data_r.dropLast, t.data_r.getLast?.getD 0⟩

/-- Moves the head one step to the left (`Tape::prev`): the current
cell is pushed onto the right stack and the new current cell is popped
from the left stack, defaulting to zero. -/
def Tape.prev (t : Tape) : Tape :=
  ⟨t.data_l.dropLast, t.data_r ++ [t.cell], t.data_l.getLast?.getD 0⟩

/-- Inserts a cell just left of the head (`Tape::insert_left`). -/
def Tape.insert_left (t : Tape) (val : Nat) : Tape :=
  { t with data_l := t.data_l ++ [val] }

/-- Inserts a cell just right of the head (`Tape::insert_right`). -/
def Tape.insert_right (t : Tape) (val : Nat) : Tape :=
  { t with data_r := t.data_r ++ [val] }

/-- Removes and returns the cell just left of the head
(`Tape::delete_left`), zero when absent. -/
def Tape.delete_left (t : Tape) : Nat × Tape :=
  (t.data_l.getLast?.getD 0, { t with data_l := t.data_l.dropLast })

/-- Removes and returns the cell just right of the head
(`Tape::delete_right`), zero when absent. -/
def Tape.delete_right (t : Tape) : Nat × Tape :=
  (t.data_r.getLast?.getD 0, { t with data_r := t.data_r.dropLast })

/-- Duplicates every visited cell (`Tape::expand_2`) and queues one
extra copy of the current cell onto the right stack. -/
def Tape.expand_2 (t : Tape) : Tape :=
  ⟨t.data_l.flatMap (fun x => [x, x]),
   t.data_r.flatMap (fun x => [x, x]) ++ [t.cell],
   t.cell⟩

/-- Triplicates every visited cell (`Tape::expand_3`) and queues two
extra copies of the current cell onto the right stack. -/
def Tape.expand_3 (t : Tape) : Tape :=
  ⟨t.data_l.flatMap (fun x => [x, x, x]),
   t.data_r.flatMap (fun x => [x, x, x]) ++ [t.cell, t.cell],
   t.cell⟩

/-- One randomization decision for one cell, modelling
`if rand::random() { (*x as i16 + rng.gen_range(-5..=5)) as u8 } else { *x }`:
the Bool is the coin, the Int the drawn perturbation, and the cast back
to `u8` keeps the low 8 bits, i.e. the value modulo 256. -/
def perturb (x : Nat) (e : Bool × Int) : Nat :=
  if e.1 then ((Int.ofNat x + e.2) % 256).toNat else x

/-- Randomizes the visited cells (`Tape::randomize`), with the random
draws supplied by the oracle stream `r` consumed index by index.
Faithful to the source: `data_l` is rebuilt from `data_l`, but `data_r`
is then rebuilt by iterating over the new `data_l` (src/lib.rs line 95),
and finally the current cell is perturbed under one more coin. -/
def Tape.randomize (r : Nat → Bool × Int) (t : Tape) : Tape :=
  let n := t.data_l.length
  let l2 := t.data_l.mapIdx (fun i x => perturb x (r i))
  let r2 := l2.mapIdx (fun i x => perturb x (r (n + i)))
  ⟨l2, r2, perturb t.cell (r (n + n))⟩

/-- The function table (src/lib.rs `FnTable`): an association from a
character to its captured body and starting offset, plus the set of
characters whose definition is currently open.  The HashMap is modelled
as an association list with unique keys, the HashSet as a list. -/
structure FnTable where
  funcs : List (Nat × (List Nat × Nat))
  creating : List Nat
  deriving DecidableEq

/-- Creates an empty function table (`FnTable::new`). -/
def FnTable.new : FnTable := ⟨[], []⟩

/-- HashMap insertion: replaces any previous binding of the key. -/
def FnTable.insertFn (t : FnTable) (c : Nat) (v : List Nat × Nat) : FnTable :=
  { t with funcs := (c, v) :: t.funcs.filter (fun p => p.1 != c) }

/-- Appends a character to the body of every function currently being
created (`FnTable::put`). -/
def FnTable.put (t : FnTable) (c : Nat) : FnTable :=
  { t with funcs := t.funcs.map (fun p =>
      if t.creating.contains p.1 then (p.1, (p.2.1 ++ [c], p.2.2)) else p) }

/-- Whether a function is defined (`FnTable::exists`). -/
def FnTable.exists_fn (t : FnTable) (c : Nat) : Bool :=
  (t.funcs.lookup c).isSome

/-- Whether a function is in the process of being created
(`FnTable::is_creating`). -/
def FnTable.is_creating (t : FnTable) (c : Nat) : Bool :=
  t.creating.contains c

/-- Looks a function up (`FnTable::get`): a function currently being
created is reported as absent. -/
def FnTable.get (t : FnTable) (c : Nat) : Option (List Nat × Nat) :=
  if t.creating.contains c then none else t.funcs.lookup c

/-- Begins a new function (`FnTable::begin`): the entry is overwritten
with an empty body and the character is marked as being created. -/
def FnTable.begin (t : FnTable) (c : Nat) (i : Nat) : FnTable :=
  let t2 := t.insertFn c ([], i)
  { t2 with creating := if t2.creating.contains c then t2.creating else c :: t2.creating }

/-- Ends a function (`FnTable::end`): only the being-created mark is
removed. -/
def FnTable.end_def (t : FnTable) (c : Nat) : FnTable :=
  { t with creating := t.creating.filter (fun x => x != c) }

/-- Whether any function is being created (`FnTable::any_creating`). -/
def FnTable.any_creating (t : FnTable) : Bool :=
  !t.creating.isEmpty

/-- Copies one function onto another (`FnTable::copy_fn`): reads the
raw `funcs` store (ignoring the being-created set) and is a no-op when
the source has no entry. -/
def FnTable.copy_fn (t : FnTable) (src dst : Nat) : FnTable :=
  match t.funcs.lookup src with
  | some x => t.insertFn dst x
  | none => t

/-- The bidirectional pair map (`BiMap<usize, usize>`), modelled as a
list of (opener position, closer position) pairs. -/
abbrev ITable := List (Nat × Nat)

/-- BiMap lookup of a closer given its opener (`get_by_left`). -/
def getByLeft (m : ITable) (i : Nat) : Option Nat :=
  (m.find? (fun p => p.1 == i)).map (fun p => p.2)

/-- BiMap lookup of an opener given its closer (`get_by_right`). -/
def getByRight (m : ITable) (i : Nat) : Option Nat :=
  (m.find? (fun p => p.2 == i)).map (fun p => p.1)

/-- Scan state of `gen_index_table`: the pairs inserted so far, the
stack of open brackets, and the pending opener of each singleton
family. -/
structure GenState where
  map : ITable
  brackstack : List Nat
  last_comment : Option Nat
  last_quote : Option Nat
  last_percent : Option Nat
  last_zero : Option Nat

/-- Initial scan state of `gen_index_table`. -/
def GenState.init : GenState := ⟨[], [], none, none, none, none⟩

/-- The left-to-right scan of `gen_index_table` (src/lib.rs lines
157-203): the caret toggles a comment pair unconditionally, a quote
pairs only outside a comment, percent and the digit zero pair only
outside both, brackets push and pop only outside both, and a bracket
closer with no pending opener is the construction error. -/
def genAux : List Nat → Nat → GenState → Except String ITable
  | [], _, st => .ok st.map
  | c :: rest, i, st =>
    if c = 94 then
      match st.last_comment with
      | none => genAux rest (i+1) { st with last_comment := some i }
      | some o => genAux rest (i+1) { st with last_comment := none, map := st.map ++ [(o, i)] }
    else if c = 34 then
      if st.last_comment.isNone then
        match st.last_quote with
        | none => genAux rest (i+1) { st with last_quote := some i }
        | some o => genAux rest (i+1) { st with last_quote := none, map := st.map ++ [(o, i)] }
      else genAux rest (i+1) st
    else if c = 37 then
      if st.last_comment.isNone && st.last_quote.isNone then
        match st.last_percent with
        | none => genAux rest (i+1) { st with last_percent := some i }
        | some o => genAux rest (i+1) { st with last_percent := none, map := st.map ++ [(o, i)] }
      else genAux rest (i+1) st
    else if c = 48 then
      if st.last_comment.isNone && st.last_quote.isNone then
        match st.last_zero with
        | none => genAux rest (i+1) { st with last_zero := some i }
        | some o => genAux rest (i+1) { st with last_zero := none, map := st.map ++ [(o, i)] }
      else genAux rest (i+1) st
    else if c = 91 then
      if st.last_comment.isNone && st.last_quote.isNone then
        genAux rest (i+1) { st with brackstack := i :: st.brackstack }
      else genAux rest (i+1) st
    else if c = 93 then
      if st.last_comment.isNone && st.last_quote.isNone then
        match st.brackstack with
        | [] => .error "mismatched brackets"
        | o :: bs => genAux rest (i+1) { st with brackstack := bs, map := st.map ++ [(o, i)] }
      else genAux rest (i+1) st
    else genAux rest (i+1) st

/-- Builds the pair map for a character buffer (`gen_index_table`). -/
def gen_index_table (code : List Nat) : Except String ITable :=
  genAux code 0 GenState.init

/-- Shifts a pair map down by a base offset, keeping only the pairs
with both endpoints at or beyond the offset (`offset_index_table`). -/
def offset_index_table (itable : ITable) (start : Nat) : ITable :=
  (itable.filter (fun p => decide (start ≤ p.1) && decide (start ≤ p.2))).map
    (fun p => (p.1 - start, p.2 - start))

/-- The code points of the string `RESERVED_CHARS` (src/lib.rs line
211), in source order. -/
def RESERVED_CHARS : List Nat :=
  [60, 62, 123, 125, 91, 93, 40, 41, 43, 45, 42, 47, 33, 46, 44, 91, 93,
   92, 35, 63, 36, 38, 64, 34, 96, 126, 124, 59, 94, 58, 39, 95, 37, 61,
   48, 49, 50, 51, 52, 53, 54, 55, 56, 57, 32, 10, 9]

/-- The code points of the string `BFMODE_ALLOW` (src/lib.rs line 212),
in source order. -/
def BFMODE_ALLOW : List Nat :=
  [60, 62, 43, 45, 91, 93, 46, 44, 95, 32, 10, 9]

/-- Whether a byte is a UTF-8 continuation byte. -/
def contB (b : Nat) : Bool := 128 ≤ b && b < 192

/-- Strict UTF-8 decoding of a byte sequence into code points, as
performed by `std::str::from_utf8` for the quine command: rejects
invalid lead bytes, truncated sequences, overlong encodings, surrogate
code points and values beyond 0x10FFFF. -/
def decodeUtf8 : List Nat → Option (List Nat)
  | [] => some []
  | b :: rest =>
    if b < 128 then (decodeUtf8 rest).map (fun l => b :: l)
    else if b < 194 then none
    else if b < 224 then
      match rest with
      | c1 :: r =>
        if contB c1 then (decodeUtf8 r).map (fun l => ((b % 32) * 64 + c1 % 64) :: l)
        else none
      | [] => none
    else if b < 240 then
      match rest with
      | c1 :: c2 :: r =>
        if (if b = 224 then 160 ≤ c1 && c1 < 192
            else if b = 237 then 128 ≤ c1 && c1 < 160
            else contB c1) && contB c2 then
          (decodeUtf8 r).map (fun l => ((b % 16) * 4096 + (c1 % 64) * 64 + c2 % 64) :: l)
        else none
      | _ => none
    else if b < 245 then
      match rest with
      | c1 :: c2 :: c3 :: r =>
        if (if b = 240 then 144 ≤ c1 && c1 < 192
            else if b = 244 then 128 ≤ c1 && c1 < 144
            else contB c1) && contB c2 && contB c3 then
          (decodeUtf8 r).map (fun l =>
            ((b % 8) * 262144 + (c1 % 64) * 4096 + (c2 % 64) * 64 + c3 % 64) :: l)
        else none
      | _ => none
    else none

/-- UTF-8 encoding of one code point. -/
def encodeChar (c : Nat) : List Nat :=
  if c < 128 then [c]
  else if c < 2048 then [192 + c / 64, 128 + c % 64]
  else if c < 65536 then [224 + c / 4096, 128 + (c / 64) % 64, 128 + c % 64]
  else [240 + c / 262144, 128 + (c / 4096) % 64, 128 + (c / 64) % 64, 128 + c % 64]

/-- UTF-8 encoding of a code point sequence, used to model the byte
view of the source string for the echo command. -/
def encodeUtf8 (cs : List Nat) : List Nat := cs.flatMap encodeChar

/-- Oracle streams standing in for the thread RNG: coins for
`rand::random::<bool>()`, bytes for `rand::random::<u8>()` and
perturbations for `gen_range(-5..=5)`, all indexed by a running draw
counter. -/
structure Rng where
  coin : Nat → Bool
  byte : Nat → Nat
  delta : Nat → Int

/-- The machine state shared by reference across nested invocations of
`run`: the tape, the output buffer `printed`, the function table, the
remaining standard input bytes and the RNG draw counter. -/
structure Shared where
  tape : Tape
  printed : List Nat
  fnt : FnTable
  input : List Nat
  rc : Nat
  deriving DecidableEq

/-- The outcome of a `run` invocation: normal return carrying the final
shared state, a propagated `Result::Err`, a Rust panic (which aborts
the process instead of returning a value) or fuel exhaustion (a model
artifact for the unbounded while loop). -/
inductive RunOut where
  | ok (s : Shared)
  | err (e : String)
  | panic (msg : String)
  | nofuel
  deriving DecidableEq

/-- The outcome of one iteration of the dispatch loop: either continue
at a new index with possibly changed modes and state, or leave the
loop with a final outcome. -/
inductive StepOut where
  | cont (idx : Nat) (bfmode nicemode : Bool) (s : Shared)
  | halt (r : RunOut)
  deriving DecidableEq

/-- The forward scan of the break command (src/lib.rs lines 293-302):
the first position at or after `idx` holding a loop closer that is
present in the pair map, if any. -/
def findCloser (code : List Nat) (itable : ITable) (idx : Nat) : Option Nat :=
  ((List.range code.length).drop idx).find?
    (fun i => code.getD i 0 == 93 && (getByRight itable i).isSome)

/-- One iteration of the dispatch loop of `run` (src/lib.rs lines
229-386), for the character at `idx` (the loop guard `idx < code.len()`
is checked by the caller).  `recur` performs a nested `run` invocation
on a new buffer and pair map with the shared state.  `fresh = false` is
the source behavior, under which the quine command re-runs the output
buffer against the caller's own `index_table`; `fresh = true` is the
variant modelled from the spec sentence asking for a pair map freshly
rebuilt from the new buffer (see the design notes of the spec), the
one place this definition deviates from the source. -/
def step (recur : List Nat → ITable → Shared → RunOut) (rng : Rng)
    (fresh : Bool) (source : List Nat) (code : List Nat) (itable : ITable)
    (idx : Nat) (bfmode nicemode : Bool) (s : Shared) : StepOut :=
  let c := code.getD idx 0
  if nicemode then
    if c = 57 then .cont (idx+1) bfmode false s
    else .cont (idx+1) bfmode true { s with printed := s.printed ++ [78, 105, 99, 101, 46, 10] }
  else if bfmode && !(BFMODE_ALLOW.contains c) then
    .cont (idx+1) bfmode nicemode s
  else if !bfmode && !(RESERVED_CHARS.contains c) && decide (idx+2 < code.length)
      && (code.getD (idx+1) 0 == 61) then
    .cont (idx+3) bfmode nicemode { s with fnt := s.fnt.copy_fn (code.getD (idx+2) 0) c }
  else if !bfmode && RESERVED_CHARS.contains c && s.fnt.any_creating then
    .cont (idx+1) bfmode nicemode { s with fnt := s.fnt.put c }
  else
    match c with
    | 62 => .cont (idx+1) bfmode nicemode { s with tape := s.tape.next }
    | 60 => .cont (idx+1) bfmode nicemode { s with tape := s.tape.prev }
    | 123 => .cont (idx+1) bfmode nicemode { s with tape := s.tape.delete_left.2 }
    | 125 => .cont (idx+1) bfmode nicemode { s with tape := s.tape.delete_right.2 }
    | 40 => .cont (idx+1) bfmode nicemode { s with tape := s.tape.insert_left 0 }
    | 41 => .cont (idx+1) bfmode nicemode { s with tape := s.tape.insert_right 0 }
    | 43 => .cont (idx+1) bfmode nicemode { s with tape := s.tape.set ((s.tape.get + 1) % 256) }
    | 45 => .cont (idx+1) bfmode nicemode { s with tape := s.tape.set ((s.tape.get + 255) % 256) }
    | 42 => .cont (idx+1) bfmode nicemode { s with tape := s.tape.set ((s.tape.get * s.tape.get_next) % 256) }
    | 47 =>
      let v := if s.tape.get_next = 0 then 255 else s.tape.get / s.tape.get_next
      .cont (idx+1) bfmode nicemode { s with tape := s.tape.set v }
    | 33 =>
      let v := if s.tape.get = 0 then 1 else if s.tape.get = 1 then 0 else s.tape.get
      .cont (idx+1) bfmode nicemode { s with tape := s.tape.set v }
    | 46 => .cont (idx+1) bfmode nicemode { s with printed := s.printed ++ [s.tape.get] }
    | 44 =>
      match s.input with
      | [] => .cont (idx+1) bfmode nicemode { s with tape := s.tape.set 0 }
      | b :: r => .cont (idx+1) bfmode nicemode { s with tape := s.tape.set (b % 256), input := r }
    | 91 =>
      if s.tape.get = 0 then
        match getByLeft itable idx with
        | some j => .cont (j+1) bfmode nicemode s
        | none => .halt (.panic "called Option::unwrap on a None value")
      else .cont (idx+1) bfmode nicemode s
    | 93 =>
      if s.tape.get ≠ 0 then
        match getByRight itable idx with
        | some j => .cont (j+1) bfmode nicemode s
        | none => .halt (.panic "called Option::unwrap on a None value")
      else .cont (idx+1) bfmode nicemode s
    | 92 =>
      match findCloser code itable idx with
      | some i => .cont (i+1) bfmode nicemode s
      | none => .cont (idx+1) bfmode nicemode s
    | 35 =>
      if s.tape.get ≠ s.tape.get_next then .cont (idx+2) bfmode nicemode s
      else .cont (idx+1) bfmode nicemode s
    | 63 => .cont (idx+1) bfmode nicemode
        { s with tape := s.tape.set (rng.byte s.rc % 256), rc := s.rc + 1 }
    | 36 =>
      if rng.coin s.rc then .cont (idx+1) bfmode nicemode { s with tape := s.tape.next, rc := s.rc + 1 }
      else .cont (idx+1) bfmode nicemode { s with tape := s.tape.prev, rc := s.rc + 1 }
    | 38 =>
      if rng.coin s.rc then .cont (idx+2) bfmode nicemode { s with rc := s.rc + 1 }
      else .cont (idx+1) bfmode nicemode { s with rc := s.rc + 1 }
    | 64 => .halt (.ok s)
    | 34 =>
      match getByLeft itable idx with
      | some e =>
        let strpart := (code.drop (idx+1)).take (e - (idx+1))
        .cont (e+1) bfmode nicemode
          { s with tape := strpart.foldl (fun t ch => (t.next).set (ch % 256)) s.tape }
      | none => .halt (.panic "called Option::unwrap on a None value")
    | 96 => .cont (idx+1) bfmode nicemode { s with tape := s.tape.set ((s.tape.get * 2) % 256) }
    | 126 => .cont (idx+1) bfmode nicemode { s with tape := s.tape.set (s.tape.get / 2) }
    | 124 => .cont 0 bfmode nicemode s
    | 59 => .cont (idx+1) bfmode nicemode { s with printed := s.printed ++ source }
    | 94 =>
      match getByLeft itable idx with
      | some j => .cont (j+1) bfmode nicemode s
      | none => .halt (.panic "called Option::unwrap on a None value")
    | 58 => .cont (idx+1) bfmode nicemode { s with tape := s.tape.set_next s.tape.get }
    | 39 =>
      match decodeUtf8 s.printed with
      | none => .halt (.panic "Output is not valid UTF-8")
      | some newcode =>
        if fresh then
          match gen_index_table newcode with
          | .error e => .halt (.err e)
          | .ok m =>
            match recur newcode m s with
            | .ok s2 => .cont (idx+1) bfmode nicemode s2
            | r => .halt r
        else
          match recur newcode itable s with
          | .ok s2 => .cont (idx+1) bfmode nicemode s2
          | r => .halt r
    | 95 => .cont (idx+1) (!bfmode) nicemode s
    | 37 =>
      match getByLeft itable idx with
      | some o => if s.tape.get = 0 then .cont (o+1) bfmode nicemode s else .cont (idx+1) bfmode nicemode s
      | none =>
        match getByRight itable idx with
        | some o => if s.tape.get ≠ 0 then .cont (o+1) bfmode nicemode s else .cont (idx+1) bfmode nicemode s
        | none => .cont (idx+1) bfmode nicemode s
    | 61 => .halt (.panic "internal error: entered unreachable code")
    | 48 =>
      match getByLeft itable idx with
      | some o => .cont (o+1) bfmode nicemode s
      | none =>
        match getByRight itable idx with
        | some o => .cont (o+1) bfmode nicemode s
        | none => .cont (idx+1) bfmode nicemode s
    | 49 => .halt (.panic "not yet implemented: Command 1 is not yet implemented.")
    | 50 => .cont (idx+1) bfmode nicemode { s with tape := s.tape.expand_2 }
    | 51 => .cont (idx+1) bfmode nicemode { s with tape := s.tape.expand_3 }
    | 52 =>
      let t2 := s.tape.randomize (fun i => (rng.coin (s.rc + i), rng.delta (s.rc + i)))
      .cont (idx+1) bfmode nicemode { s with tape := t2, rc := s.rc + 2 * s.tape.data_l.length + 1 }
    | 53 => .cont (idx+1) bfmode nicemode { s with tape := s.tape.set (cell_round s.tape.get) }
    | 54 => .cont (idx+1) bfmode true s
    | 55 => .halt (.panic "not yet implemented: Command 7 is not yet implemented")
    | 56 => .cont (idx+1) bfmode nicemode
        { s with tape := (List.range 7).foldl (fun t _ => (t.set 8).next) s.tape.prev.prev.prev }
    | 57 => .cont (idx+1) bfmode nicemode s
    | 32 => .cont (idx+1) bfmode nicemode s
    | 10 => .cont (idx+1) bfmode nicemode s
    | 9 => .cont (idx+1) bfmode nicemode s
    | _ =>
      match s.fnt.get c with
      | some (func, start) =>
        match recur func (offset_index_table itable start) s with
        | .ok s2 => .cont (idx+1) bfmode nicemode s2
        | r => .halt r
      | none =>
        if s.fnt.is_creating c then
          .cont (idx+1) bfmode nicemode { s with fnt := s.fnt.end_def c }
        else
          .cont (idx+1) bfmode nicemode { s with fnt := s.fnt.begin c (idx+1) }

/-- The while loop of `run`, driven by fuel (a model artifact: the
source loop is unbounded).  Every loop iteration and every nested
invocation consumes one unit of fuel.  A nested invocation starts at
index 0 in normal mode, exactly like the source `run`. -/
def runAux (rng : Rng) (fresh : Bool) (source : List Nat) :
    Nat → List Nat → ITable → Nat → Bool → Bool → Shared → RunOut
  | 0, _, _, _, _, _, _ => .nofuel
  | fuel+1, code, itable, idx, bfmode, nicemode, s =>
    if idx < code.length then
      match step (fun c2 i2 s2 => runAux rng fresh source fuel c2 i2 0 false false s2)
          rng fresh source code itable idx bfmode nicemode s with
      | .cont idx2 bf2 nice2 s2 => runAux rng fresh source fuel code itable idx2 bf2 nice2 s2
      | .halt r => r
    else .ok s

/-- The entry point `exec` (src/lib.rs lines 391-395): builds the pair
map, propagating a construction error without running anything, then
runs the program on a fresh tape, empty output buffer and fresh
function table.  The source string seen by the echo command is the
UTF-8 encoding of the program. -/
def exec (rng : Rng) (fresh : Bool) (fuel : Nat) (input : List Nat)
    (code : List Nat) : RunOut :=
  match gen_index_table code with
  | .error e => .err e
  | .ok itable =>
    runAux rng fresh (encodeUtf8 code) fuel code itable 0 false false
      ⟨Tape.new, [], FnTable.new, input, 0⟩

/-- A fixed, arbitrary RNG oracle for runs that never draw randomness. -/
def rng0 : Rng := ⟨fun _ => false, fun _ => 0, fun _ => 0⟩

/-- The output bytes of a deterministic run, given the standard input
bytes, or `none` if the run does not return normally; `fresh` selects
between the source behavior and the spec-modelled quine variant. -/
def execOut (fresh : Bool) (input code : List Nat) : Option (List Nat) :=
  match exec rng0 fresh 1000 input code with
  | .ok s => some s.printed
  | _ => none

/-- The output bytes of a run of the source interpreter, no input. -/
def execPrinted (code : List Nat) : Option (List Nat) :=
  execOut false [] code

/-- A demonstration program for the quine command: a bracket pair at
positions 0 and 1, four read-then-print pairs that copy the four input
bytes to the output buffer, one read from exhausted input that zeroes
the cell, then the quine command.  Fed the input bytes of the text
consisting of loop open, plus, output, loop close, its output buffer
holds exactly that four-byte program when the quine command runs it. -/
def quineDemo : List Nat :=
  [91, 93, 44, 46, 44, 46, 44, 46, 44, 46, 44, 39]

/-- Counterexample to claim C1: the program built of increment, loop
open, decrement, output, loop close emits exactly one output byte (the
zero written on the single pass through the loop body), so its output
is not empty. -/
theorem c1_counterexample :
    execPrinted [43, 91, 45, 46, 93] = some [0] ∧
    execPrinted [43, 91, 45, 46, 93] ≠ some [] :=
  ⟨by decide, by decide⟩

/-- Claim C1 (amended): the program built of increment, loop open,
decrement, output, loop close emits exactly the single output byte 0,
and the three-increment variant emits exactly the bytes 2, 1, 0 in
that order; loop open jumps past its paired close when the active cell
is zero and loop close jumps back to its paired open when it is
nonzero. -/
theorem c1_loop_programs_output :
    execPrinted [43, 91, 45, 46, 93] = some [0] ∧
    execPrinted [43, 43, 43, 91, 45, 46, 93] = some [2, 1, 0] :=
  ⟨by decide, by decide⟩

/-- Counterexample to claim C2: after next() then prev() on a fresh
tape the right history is the one-element stack holding 0, not the
original empty history. -/
theorem c2_counterexample :
    (Tape.new.next.prev).data_r = [0] ∧ (Tape.new.next.prev).data_r ≠ [] :=
  ⟨by decide, by decide⟩

/-- Claim C2 (amended): performing next() then prev() on a fresh tape
restores the active cell to 0 and leaves the left history empty, but
the right history ends as the one-element stack holding 0: the cell
visited by next() is materialized when prev() pushes the active cell
back. -/
theorem c2_next_prev_fresh :
    (Tape.new.next.prev).cell = 0 ∧ (Tape.new.next.prev).data_l = [] ∧
    (Tape.new.next.prev).data_r = [0] :=
  ⟨rfl, rfl, rfl⟩

/-- Counterexample to claim C3: running the one-character program of
the unimplemented numeric command 1 ends in a Rust panic (a process
abort), not in a distinguishable error value returned to the caller. -/
theorem c3_counterexample :
    exec rng0 false 10 [] [49]
      = .panic "not yet implemented: Command 1 is not yet implemented." :=
  by decide

/-- Claim C3 (amended): a construction failure is returned to the
caller of the entry point as a distinguishable error value (the
one-character program of an unmatched loop closer, even with no fuel,
so before any execution), while an unresolved pair lookup during
dispatch (the one-character program of an unmatched comment caret) and
an unimplemented numeric command abort through a panic instead of
being returned as error values. -/
theorem c3_error_and_panic_outcomes :
    exec rng0 false 0 [] [93] = .err "mismatched brackets" ∧
    exec rng0 false 10 [] [94] = .panic "called Option::unwrap on a None value" ∧
    exec rng0 false 10 [] [49]
      = .panic "not yet implemented: Command 1 is not yet implemented." :=
  ⟨by decide, by decide, by decide⟩

/-- Counterexample to claim C4: on the quine demonstration program the
source interpreter (which hands the caller's pair map to the nested
run) prints a fifth byte 0, because position 0 of the re-run buffer
resolves through the outer program's bracket pair (0, 1) and lands on
the output command; the spec-modelled variant that rebuilds the pair
map from the new buffer resolves (0, 3) and skips it.  The two
behaviors differ, so the nested run does not resolve pairs against the
new buffer's own structure. -/
theorem c4_counterexample :
    execOut false [91, 43, 46, 93] quineDemo = some [91, 43, 46, 93, 0] ∧
    execOut true [91, 43, 46, 93] quineDemo = some [91, 43, 46, 93] ∧
    gen_index_table [91, 43, 46, 93] = .ok [(0, 3)] :=
  ⟨by decide, by decide, rfl⟩

/-- Claim C7 is about a code bug: randomize() rebuilds the right
history from the freshly randomized left history (src/lib.rs line 95),
so on a tape whose left history is empty and whose right history holds
the single cell 7, the right history comes back empty for every
possible random draw — the cell value 7 is destroyed — instead of
being kept or perturbed from its own prior value.  In general the
post-randomize right history is a function of the post-randomize left
history alone. -/
theorem c7_randomize_right_from_left :
    (∀ r : Nat → Bool × Int, (Tape.randomize r ⟨[], [7], 0⟩).data_r = []) ∧
    (∀ (r : Nat → Bool × Int) (t : Tape),
      (Tape.randomize r t).data_r
        = (Tape.randomize r t).data_l.mapIdx
            (fun i x => perturb x (r (t.data_l.length + i)))) :=
  ⟨fun _ => rfl, fun _ _ => rfl⟩

/-- Claim C10: copy_fn reads the raw function store, so a source
identifier that is currently marked being-defined is still copied
(its partially accumulated body lands on the destination), while get()
on the same identifier reports it absent. -/
theorem c10_copy_fn_raw_vs_get (t : FnTable) (src dst : Nat)
    (body : List Nat) (off : Nat)
    (hc : t.is_creating src = true)
    (hf : t.funcs.lookup src = some (body, off)) :
    (t.copy_fn src dst).funcs.lookup dst = some (body, off) ∧
    t.get src = none := by
  constructor
  · unfold FnTable.copy_fn
    rw [hf]
    unfold FnTable.insertFn
    simp [List.lookup]
  · unfold FnTable.get
    unfold FnTable.is_creating at hc
    rw [hc]
    rfl

/-- Witness for claim C10 at a concrete table: the identifier 97 is
being defined with partial body consisting of the increment command,
copy onto 98 succeeds with that partial body while get reports 97
absent. -/
theorem c10_witness :
    ((FnTable.mk [(97, ([43], 5))] [97]).copy_fn 97 98).funcs.lookup 98
      = some ([43], 5) ∧
    (FnTable.mk [(97, ([43], 5))] [97]).get 97 = none :=
  c10_copy_fn_raw_vs_get (FnTable.mk [(97, ([43], 5))] [97]) 97 98 [43] 5
    (by decide) (by decide)

/-- Claim C6: cell_round maps 0-2 to 0, 3-7 to 5, 8-12 to 10, and in
general every byte to the multiple of five below it when the remainder
is at most 2, and to the next multiple of five (with wrapping addition
of 5) otherwise, so that 253-255 all map to 255; and the numeric
command 5 applies exactly this function to the active cell. -/
theorem c6_cell_round_spec (n : Nat) (h : n < 256) :
    ((n ≤ 2 → cell_round n = 0) ∧
     (3 ≤ n → n ≤ 7 → cell_round n = 5) ∧
     (8 ≤ n → n ≤ 12 → cell_round n = 10) ∧
     (253 ≤ n → cell_round n = 255) ∧
     (n % 5 ≤ 2 → cell_round n = n - n % 5) ∧
     (2 < n % 5 → cell_round n = (n - n % 5 + 5) % 256)) ∧
    (∀ (recur : List Nat → ITable → Shared → RunOut) (itable : ITable)
       (p inp : List Nat) (rc : Nat),
      step recur rng0 false [] [53] itable 0 false false
          ⟨⟨[], [], n⟩, p, FnTable.new, inp, rc⟩
        = .cont 1 false false ⟨⟨[], [], cell_round n⟩, p, FnTable.new, inp, rc⟩) := by
  constructor
  · unfold cell_round
    refine ⟨?_, ?_, ?_, ?_, ?_, ?_⟩ <;> intros <;> split_ifs <;> omega
  · intro recur itable p inp rc
    rfl

/-- Witness for claim C6 at the concrete byte 7: it rounds to 5, and
the numeric command 5 writes that value to the active cell. -/
theorem c6_witness :
    cell_round 7 = 5 ∧
    step (fun _ _ _ => RunOut.nofuel) rng0 false [] [53] [] 0 false false
        ⟨⟨[], [], 7⟩, [], FnTable.new, [], 0⟩
      = .cont 1 false false ⟨⟨[], [], cell_round 7⟩, [], FnTable.new, [], 0⟩ :=
  ⟨((c6_cell_round_spec 7 (by decide)).1.2.1 (by decide) (by decide)),
   (c6_cell_round_spec 7 (by decide)).2 (fun _ _ _ => RunOut.nofuel) [] [] [] 0⟩

/-- Claim C8: in normal mode (neither restricted nor nice mode), when
the current character is not reserved, a character exists two
positions ahead and the next character is the copy-assignment symbol,
the step clones the function stored under the character two positions
ahead onto the current character's slot and advances past all three
characters, executing none of them; and the clone is a no-op when the
source slot has no stored entry. -/
theorem c8_copy_assignment_step
    (recur : List Nat → ITable → Shared → RunOut) (rng : Rng) (fresh : Bool)
    (source code : List Nat) (itable : ITable) (idx : Nat) (s : Shared)
    (hres : RESERVED_CHARS.contains (code.getD idx 0) = false)
    (hlen : idx + 2 < code.length)
    (heq : code.getD (idx + 1) 0 = 61) :
    step recur rng fresh source code itable idx false false s
      = .cont (idx + 3) false false
          { s with fnt := s.fnt.copy_fn (code.getD (idx + 2) 0) (code.getD idx 0) } ∧
    (s.fnt.funcs.lookup (code.getD (idx + 2) 0) = none →
      s.fnt.copy_fn (code.getD (idx + 2) 0) (code.getD idx 0) = s.fnt) := by
  constructor
  · simp only [step]
    rw [hres, heq]
    simp [hlen]
  · intro hnone
    unfold FnTable.copy_fn
    rw [hnone]

/-- Witness for claim C8 on the concrete program consisting of the
identifier 97, the copy-assignment symbol and the identifier 98, with
an empty function table (so the clone is a no-op). -/
theorem c8_witness :
    step (fun _ _ _ => RunOut.nofuel) rng0 false [] [97, 61, 98] [] 0 false false
        ⟨Tape.new, [], FnTable.new, [], 0⟩
      = .cont 3 false false
          { Shared.mk Tape.new [] FnTable.new [] 0 with
              fnt := FnTable.new.copy_fn ([97, 61, 98].getD 2 0) ([97, 61, 98].getD 0 0) } :=
  (c8_copy_assignment_step (fun _ _ _ => RunOut.nofuel) rng0 false [] [97, 61, 98]
    [] 0 ⟨Tape.new, [], FnTable.new, [], 0⟩ (by decide) (by decide) (by decide)).1

/-- Claim C4 (amended): when the quine command re-executes the output
buffer's decoded bytes as a new program buffer in normal mode (with no
definition open, so the character dispatches as a command), the nested
run receives the caller's own pair map, not a map rebuilt from the new
buffer, so pair lookups in the re-run resolve against the original
buffer's structure. -/
theorem c4_quine_reuses_caller_table
    (recur : List Nat → ITable → Shared → RunOut) (rng : Rng)
    (source code : List Nat) (itable : ITable) (idx : Nat) (s : Shared)
    (nc : List Nat)
    (hch : code.getD idx 0 = 39)
    (hcr : s.fnt.any_creating = false)
    (hdec : decodeUtf8 s.printed = some nc) :
    step recur rng false source code itable idx false false s
      = match recur nc itable s with
        | .ok s2 => .cont (idx + 1) false false s2
        | r => .halt r := by
  simp only [step]
  rw [hch, hcr, hdec]
  rfl

/-- Witness for claim C4 at a concrete quine step: an empty output
buffer decodes to the empty buffer, and the nested runner is invoked
with the caller's pair map. -/
theorem c4_witness :
    step (fun _ _ _ => RunOut.nofuel) rng0 false [] [39] [(0, 1)] 0 false false
        ⟨Tape.new, [], FnTable.new, [], 0⟩
      = .halt RunOut.nofuel :=
  c4_quine_reuses_caller_table (fun _ _ _ => RunOut.nofuel) rng0 [] [39]
    [(0, 1)] 0 ⟨Tape.new, [], FnTable.new, [], 0⟩ [] (by decide) (by decide) rfl

/-- Claim C9: while basic-restricted mode is active (and nice mode is
not), a character outside the allowed subset advances the index with
no state change at all, and an allowed character dispatches directly
as a command — in particular the function table is never touched: no
character is fed into an open definition and copy-assignment never
executes (the only non-continuing outcome is the panic of an
unresolved bracket lookup). -/
theorem c9_bfmode_invariants
    (recur : List Nat → ITable → Shared → RunOut) (rng : Rng) (fresh : Bool)
    (source code : List Nat) (itable : ITable) (idx : Nat) (s : Shared) :
    (BFMODE_ALLOW.contains (code.getD idx 0) = false →
      step recur rng fresh source code itable idx true false s
        = .cont (idx + 1) true false s) ∧
    (BFMODE_ALLOW.contains (code.getD idx 0) = true →
      (∃ i b s2, step recur rng fresh source code itable idx true false s
          = .cont i b false s2 ∧ s2.fnt = s.fnt) ∨
      (∃ m, step recur rng fresh source code itable idx true false s
          = .halt (.panic m))) := by
  constructor
  · intro h
    simp only [step, h]
    rfl
  · intro h
    have hm : code.getD idx 0 ∈ BFMODE_ALLOW := by simpa using h
    simp only [BFMODE_ALLOW, List.mem_cons, List.not_mem_nil, or_false] at hm
    rcases hm with h | h | h | h | h | h | h | h | h | h | h | h
    · refine Or.inl ⟨idx + 1, true, { s with tape := s.tape.prev }, ?_, rfl⟩
      simp only [step, h]
      rfl
    · refine Or.inl ⟨idx + 1, true, { s with tape := s.tape.next }, ?_, rfl⟩
      simp only [step, h]
      rfl
    · refine Or.inl ⟨idx + 1, true,
        { s with tape := s.tape.set ((s.tape.get + 1) % 256) }, ?_, rfl⟩
      simp only [step, h]
      rfl
    · refine Or.inl ⟨idx + 1, true,
        { s with tape := s.tape.set ((s.tape.get + 255) % 256) }, ?_, rfl⟩
      simp only [step, h]
      rfl
    · -- loop open
      have base : step recur rng fresh source code itable idx true false s
          = (if s.tape.get = 0 then
               (match getByLeft itable idx with
                | some j2 => StepOut.cont (j2 + 1) true false s
                | none => StepOut.halt
                    (RunOut.panic "called Option::unwrap on a None value"))
             else StepOut.cont (idx + 1) true false s) := by
        simp only [step, h]
        rfl
      by_cases hz : s.tape.get = 0
      · rcases hby : getByLeft itable idx with _ | j
        · refine Or.inr ⟨"called Option::unwrap on a None value", ?_⟩
          rw [base, if_pos hz, hby]
        · refine Or.inl ⟨j + 1, true, s, ?_, rfl⟩
          rw [base, if_pos hz, hby]
      · exact Or.inl ⟨idx + 1, true, s, by rw [base, if_neg hz], rfl⟩
    · -- loop close
      have base : step recur rng fresh source code itable idx true false s
          = (if s.tape.get ≠ 0 then
               (match getByRight itable idx with
                | some j2 => StepOut.cont (j2 + 1) true false s
                | none => StepOut.halt
                    (RunOut.panic "called Option::unwrap on a None value"))
             else StepOut.cont (idx + 1) true false s) := by
        simp only [step, h]
        rfl
      by_cases hz : s.tape.get ≠ 0
      · rcases hby : getByRight itable idx with _ | j
        · refine Or.inr ⟨"called Option::unwrap on a None value", ?_⟩
          rw [base, if_pos hz, hby]
        · refine Or.inl ⟨j + 1, true, s, ?_, rfl⟩
          rw [base, if_pos hz, hby]
      · exact Or.inl ⟨idx + 1, true, s, by rw [base, if_neg hz], rfl⟩
    · refine Or.inl ⟨idx + 1, true,
        { s with printed := s.printed ++ [s.tape.get] }, ?_, rfl⟩
      simp only [step, h]
      rfl
    · -- input
      have base : step recur rng fresh source code itable idx true false s
          = (match s.input with
             | [] => StepOut.cont (idx + 1) true false { s with tape := s.tape.set 0 }
             | b :: r => StepOut.cont (idx + 1) true false
                 { s with tape := s.tape.set (b % 256), input := r }) := by
        simp only [step, h]
        rfl
      rcases hin : s.input with _ | ⟨b, r⟩
      · refine Or.inl ⟨idx + 1, true, { s with tape := s.tape.set 0 }, ?_, rfl⟩
        rw [base, hin]
      · refine Or.inl ⟨idx + 1, true,
          { s with tape := s.tape.set (b % 256), input := r }, ?_, rfl⟩
        rw [base, hin]
    · refine Or.inl ⟨idx + 1, false, s, ?_, rfl⟩
      simp only [step, h]
      rfl
    · refine Or.inl ⟨idx + 1, true, s, ?_, rfl⟩
      simp only [step, h]
      rfl
    · refine Or.inl ⟨idx + 1, true, s, ?_, rfl⟩
      simp only [step, h]
      rfl
    · refine Or.inl ⟨idx + 1, true, s, ?_, rfl⟩
      simp only [step, h]
      rfl

/-- Witness for claim C9: in basic-restricted mode the identifier 65
is skipped with no state change, and the allowed increment command 43
executes with the function table untouched. -/
theorem c9_witness :
    step (fun _ _ _ => RunOut.nofuel) rng0 false [] [65] [] 0 true false
        ⟨Tape.new, [], FnTable.new, [], 0⟩
      = .cont 1 true false ⟨Tape.new, [], FnTable.new, [], 0⟩ ∧
    ((∃ i b s2, step (fun _ _ _ => RunOut.nofuel) rng0 false [] [43] [] 0 true false
          ⟨Tape.new, [], FnTable.new, [], 0⟩
        = .cont i b false s2 ∧ s2.fnt = FnTable.new) ∨
     (∃ m, step (fun _ _ _ => RunOut.nofuel) rng0 false [] [43] [] 0 true false
          ⟨Tape.new, [], FnTable.new, [], 0⟩
        = .halt (.panic m))) :=
  ⟨(c9_bfmode_invariants (fun _ _ _ => RunOut.nofuel) rng0 false [] [65] [] 0
      ⟨Tape.new, [], FnTable.new, [], 0⟩).1 (by decide),
   (c9_bfmode_invariants (fun _ _ _ => RunOut.nofuel) rng0 false [] [43] [] 0
      ⟨Tape.new, [], FnTable.new, [], 0⟩).2 (by decide)⟩

/-- An independent scan deciding whether a buffer contains an
unmatched loop closer: walking left to right while tracking whether a
comment pair or a quote pair is open (the caret toggles the comment
flag unconditionally, a quote toggles the quote flag outside comments)
and the nesting depth of active loop brackets, some closer outside
comments and quotes arrives at depth zero. -/
def umcAux : List Nat → Bool → Bool → Nat → Bool
  | [], _, _, _ => false
  | c :: rest, inC, inQ, depth =>
    if c = 94 then umcAux rest (!inC) inQ depth
    else if c = 34 then
      if inC then umcAux rest inC inQ depth else umcAux rest inC (!inQ) depth
    else if c = 91 then
      if !inC && !inQ then umcAux rest inC inQ (depth + 1)
      else umcAux rest inC inQ depth
    else if c = 93 then
      if !inC && !inQ then
        if depth = 0 then true else umcAux rest inC inQ (depth - 1)
      else umcAux rest inC inQ depth
    else umcAux rest inC inQ depth

/-- Whether a program contains an unmatched loop closer, i.e. a closer
that acts as a loop bracket (outside comment and quote pairs) with no
pending opener. -/
def hasUnmatchedCloser (code : List Nat) : Bool :=
  umcAux code false false 0

/-- The pair-map scan fails with the mismatched-brackets error on
every buffer whose remaining characters contain an unmatched loop
closer relative to the scan state. -/
theorem genAux_error_of_scan (code : List Nat) :
    ∀ (i : Nat) (st : GenState),
      umcAux code st.last_comment.isSome st.last_quote.isSome
          st.brackstack.length = true →
      genAux code i st = Except.error "mismatched brackets" := by
  induction code with
  | nil =>
    intro i st h
    simp [umcAux] at h
  | cons c rest ih =>
    intro i st h
    simp only [umcAux] at h
    simp only [genAux]
    by_cases h94 : c = 94
    · subst h94
      cases hcm : st.last_comment with
      | none => apply ih; simpa [hcm] using h
      | some o => apply ih; simpa [hcm] using h
    · by_cases h34 : c = 34
      · subst h34
        cases hcm : st.last_comment with
        | none =>
          cases hcq : st.last_quote with
          | none => apply ih; simpa [hcm, hcq] using h
          | some q => apply ih; simpa [hcm, hcq] using h
        | some o => apply ih; simpa [hcm] using h
      · by_cases h37 : c = 37
        · subst h37
          cases hcm : st.last_comment with
          | none =>
            cases hcq : st.last_quote with
            | none =>
              cases hcp : st.last_percent with
              | none => apply ih; simpa [hcm, hcq] using h
              | some p => apply ih; simpa [hcm, hcq] using h
            | some q => apply ih; simpa [hcm, hcq] using h
          | some o => apply ih; simpa [hcm] using h
        · by_cases h48 : c = 48
          · subst h48
            cases hcm : st.last_comment with
            | none =>
              cases hcq : st.last_quote with
              | none =>
                cases hcz : st.last_zero with
                | none => apply ih; simpa [hcm, hcq] using h
                | some z => apply ih; simpa [hcm, hcq] using h
              | some q => apply ih; simpa [hcm, hcq] using h
            | some o => apply ih; simpa [hcm] using h
          · by_cases h91 : c = 91
            · subst h91
              cases hcm : st.last_comment with
              | none =>
                cases hcq : st.last_quote with
                | none => apply ih; simpa [hcm, hcq] using h
                | some q => apply ih; simpa [hcm, hcq] using h
              | some o => apply ih; simpa [hcm] using h
            · by_cases h93 : c = 93
              · subst h93
                cases hcm : st.last_comment with
                | none =>
                  cases hcq : st.last_quote with
                  | none =>
                    cases hbs : st.brackstack with
                    | nil => rfl
                    | cons o bs => apply ih; simpa [hcm, hcq, hbs] using h
                  | some q => apply ih; simpa [hcm, hcq] using h
                | some o => apply ih; simpa [hcm] using h
              · rw [if_neg h94, if_neg h34, if_neg h37, if_neg h48,
                  if_neg h91, if_neg h93]
                rw [if_neg h94, if_neg h34, if_neg h91, if_neg h93] at h
                exact ih (i + 1) st h

/-- Claim C5: every program containing an unmatched loop closer fails
pair-map construction with the mismatched-brackets error, and the
entry point returns that error — even with no fuel at all, so before
any execution is performed. -/
theorem c5_unmatched_closer_fails (code : List Nat) (rng : Rng) (fresh : Bool)
    (fuel : Nat) (input : List Nat)
    (h : hasUnmatchedCloser code = true) :
    exec rng fresh fuel input code = .err "mismatched brackets" := by
  unfold exec gen_index_table
  rw [genAux_error_of_scan code 0 GenState.init (by simpa [GenState.init] using h)]

/-- Witness for claim C5: the one-character program of a single loop
closer has an unmatched closer and fails construction with the
mismatched-brackets error under zero fuel. -/
theorem c5_witness :
    hasUnmatchedCloser [93] = true ∧
    exec rng0 false 0 [] [93] = .err "mismatched brackets" :=
  ⟨by decide, c5_unmatched_closer_fails [93] rng0 false 0 [] (by decide)⟩
